import Mathlib

/-!
Verification of the bank-visit record manager (`lab4.py`).

The development shallowly embeds the program's core: the `BankVisit` record
class with its validating `__setattr__` (integer coercion of `vid`, parsing of
`date` strings with `datetime.strptime('%Y-%m-%d %H:%M')`), and the
`VisitCollection` store (list with a shared iteration cursor, CSV load/save).

Modelling conventions:
- Python dynamic values that can reach the record fields are modelled by
  `PyVal` (`None`, `int`, `str`, `datetime`).
- Python exceptions are modelled by `PyErr`; `ValueError` is the spec's
  `ValidationError`.
- `datetime.strptime` is modelled faithfully after CPython's `_strptime`
  regex machinery for the fixed format `'%Y-%m-%d %H:%M'`: each directive is
  an ordered list of alternatives (exactly the alternatives of the compiled
  pattern `\d\d\d\d`, `1[0-2]|0[1-9]|[1-9]`, `3[0-1]|[1-2]\d|0[1-9]|[1-9]| [1-9]`,
  `2[0-3]|[0-1]\d|\d`, `[0-5]\d|\d`, with the literal space of the format
  standing for `\s+`), the overall match is the backtracking-first full-pattern
  match (depth-first, earlier alternatives preferred), trailing unconverted
  data is an error, and the final `datetime(...)` construction checks calendar
  validity.  Digits and whitespace are modelled over ASCII.
- `datetime.strftime('%Y-%m-%d %H:%M')` renders `%m %d %H %M` zero-padded to
  two digits; `%Y` is rendered without zero padding, which is the observed
  CPython behaviour on Linux/glibc (year 999 renders as "999").
- The CSV layer is modelled at the row level: a file is a `List (List String)`
  of decoded rows (the `csv` module's quoting round-trips fields exactly, so
  nothing is lost by this abstraction); a missing file is `Option.none`.
  `csv.DictReader` semantics are kept: the first row gives the field names,
  blank rows are skipped, and a data row shorter than the header is padded
  with `None` (`restval`).
- Console reporting (`print`) is modelled as a list of emitted messages.
-/

deriving instance DecidableEq for Except

/-- Python exception classes that the embedded code can raise. -/
inductive PyErr where
  | valueError
  | typeError
  | keyError
  | indexError
  | attributeError
deriving DecidableEq

/-- A `datetime.datetime` value as produced by this program: the format
`'%Y-%m-%d %H:%M'` never sets seconds or microseconds, so minute precision
suffices. -/
structure PyDateTime where
  year : Nat
  month : Nat
  day : Nat
  hour : Nat
  minute : Nat
deriving DecidableEq

/-- Gregorian leap-year rule used by `datetime`. -/
def isLeapYear (y : Nat) : Bool :=
  y % 4 == 0 && (y % 100 != 0 || y % 400 == 0)

/-- Days in a month, as `datetime` validates them. -/
def daysInMonth (y m : Nat) : Nat :=
  if m == 2 then (if isLeapYear y then 29 else 28)
  else if m == 4 || m == 6 || m == 9 || m == 11 then 30
  else 31

/-- The validity check performed by the `datetime` constructor
(MINYEAR = 1, MAXYEAR = 9999). -/
def PyDateTime.valid (d : PyDateTime) : Bool :=
  decide (1 ≤ d.year ∧ d.year ≤ 9999 ∧ 1 ≤ d.month ∧ d.month ≤ 12 ∧
    1 ≤ d.day ∧ d.day ≤ daysInMonth d.year d.month ∧ d.hour ≤ 23 ∧ d.minute ≤ 59)

/-- ASCII decimal digit test (the `\d` of the modelled pattern). -/
def isDigitChar (c : Char) : Bool := '0' ≤ c && c ≤ '9'

/-- Numeric value of a digit character. -/
def digitVal (c : Char) : Nat := c.toNat - 48

/-- The decimal digit character for `n % 10`. -/
def digitChar (n : Nat) : Char := Char.ofNat (48 + n % 10)

/-- ASCII whitespace (the `\s` of the modelled pattern and of `str.strip`). -/
def isSpaceChar (c : Char) : Bool :=
  c == ' ' || c == '\t' || c == '\n' || c == '\x0b' || c == '\x0c' || c == '\r'

/-- Character range test, mirroring a regex character class like `[0-2]`. -/
def between (lo hi c : Char) : Bool := lo ≤ c && c ≤ hi

/-- Decimal digits of `n`, most significant first, accumulated into `acc`.
`fuel ≥ n` guarantees enough steps; structural recursion on `fuel` keeps the
definition kernel-reducible. -/
def natToDigitsAux (fuel : Nat) (n : Nat) (acc : List Char) : List Char :=
  match fuel with
  | 0 => acc
  | fuel' + 1 => if n = 0 then acc else natToDigitsAux fuel' (n / 10) (digitChar n :: acc)

/-- Python `str()` of a non-negative integer. -/
def pyStrOfNat (n : Nat) : String :=
  if n = 0 then "0" else String.mk (natToDigitsAux n n [])

/-- Python `str()` of an integer. -/
def pyStrOfInt (n : Int) : String :=
  if n < 0 then "-" ++ pyStrOfNat n.natAbs else pyStrOfNat n.natAbs

/-- Two-digit zero-padded rendering (`%m`, `%d`, `%H`, `%M` of `strftime`). -/
def pad2 (n : Nat) : String :=
  if n < 10 then "0" ++ pyStrOfNat n else pyStrOfNat n

/-- Four-digit zero-padded rendering (used by `datetime.__str__`). -/
def pad4 (n : Nat) : String :=
  if n < 10 then "000" ++ pyStrOfNat n
  else if n < 100 then "00" ++ pyStrOfNat n
  else if n < 1000 then "0" ++ pyStrOfNat n
  else pyStrOfNat n

/-- `datetime.strftime('%Y-%m-%d %H:%M')`.  `%Y` is not zero-padded (observed
CPython behaviour on Linux/glibc); the other directives are padded to two
digits. -/
def PyDateTime.strftimeYMDHM (d : PyDateTime) : String :=
  pyStrOfNat d.year ++ "-" ++ pad2 d.month ++ "-" ++ pad2 d.day ++ " "
    ++ pad2 d.hour ++ ":" ++ pad2 d.minute

/-- `str(datetime)`, i.e. `isoformat(sep=' ')`: zero-padded year and seconds. -/
def PyDateTime.isoStr (d : PyDateTime) : String :=
  pad4 d.year ++ "-" ++ pad2 d.month ++ "-" ++ pad2 d.day ++ " "
    ++ pad2 d.hour ++ ":" ++ pad2 d.minute ++ ":00"

/-- Digit run with single underscores allowed strictly between digits, as in
Python's `int()` literal grammar; accumulates the value decimal-wise. -/
def digitsRest (acc : Nat) : List Char → Option Nat
  | [] => some acc
  | c :: rest =>
    if c == '_' then
      match rest with
      | c2 :: rest2 =>
          if isDigitChar c2 then digitsRest (acc * 10 + digitVal c2) rest2 else Option.none
      | [] => Option.none
    else if isDigitChar c then digitsRest (acc * 10 + digitVal c) rest
    else Option.none

/-- Unsigned decimal literal: a digit followed by digits with optional single
underscores between digits. -/
def parseUnsigned : List Char → Option Nat
  | [] => Option.none
  | c :: rest => if isDigitChar c then digitsRest (digitVal c) rest else Option.none

/-- `str.strip()` on both ends, as `int()` applies to its string argument. -/
def stripBoth (l : List Char) : List Char :=
  ((l.dropWhile isSpaceChar).reverse.dropWhile isSpaceChar).reverse

/-- The body of Python `int(s)` after stripping: optional sign, then an
unsigned decimal literal. -/
def pyIntCore : List Char → Except PyErr Int
  | [] => Except.error PyErr.valueError
  | c :: rest =>
    if c == '+' then
      match parseUnsigned rest with
      | some n => Except.ok (n : Int)
      | Option.none => Except.error PyErr.valueError
    else if c == '-' then
      match parseUnsigned rest with
      | some n => Except.ok (-(n : Int))
      | Option.none => Except.error PyErr.valueError
    else
      match parseUnsigned (c :: rest) with
      | some n => Except.ok (n : Int)
      | Option.none => Except.error PyErr.valueError

/-- Python `int(s)` for a string argument: optional surrounding whitespace,
optional sign, then an unsigned decimal literal; `ValueError` otherwise. -/
def pyIntOfString (s : String) : Except PyErr Int :=
  pyIntCore (stripBoth s.data)

/-- The `%Y` directive: exactly four digits, in preference order (a single
alternative). -/
def matchY : List Char → List (Nat × List Char)
  | a :: b :: c :: e :: rest =>
    if isDigitChar a && isDigitChar b && isDigitChar c && isDigitChar e then
      [(digitVal a * 1000 + digitVal b * 100 + digitVal c * 10 + digitVal e, rest)]
    else []
  | _ => []

/-- A two-character regex alternative such as `1[0-2]`: both characters are
digits matched by the given class tests. -/
def matchTwo (p1 p2 : Char → Bool) : List Char → List (Nat × List Char)
  | a :: b :: rest =>
    if p1 a && p2 b then [(digitVal a * 10 + digitVal b, rest)] else []
  | _ => []

/-- A one-character regex alternative such as `[1-9]`. -/
def matchOne (p : Char → Bool) : List Char → List (Nat × List Char)
  | a :: rest => if p a then [(digitVal a, rest)] else []
  | _ => []

/-- The ` [1-9]` alternative of `%d`: a literal space then a digit; the value
is the digit (Python applies `int()` to the matched text). -/
def matchSpaceDigit : List Char → List (Nat × List Char)
  | a :: b :: rest =>
    if a == ' ' && between '1' '9' b then [(digitVal b, rest)] else []
  | _ => []

/-- A literal character of the pattern. -/
def matchLit (c : Char) : List Char → List (List Char)
  | a :: rest => if a == c then [rest] else []
  | [] => []

/-- `%m`: `1[0-2]|0[1-9]|[1-9]`, alternatives in regex order. -/
def matchMonth (s : List Char) : List (Nat × List Char) :=
  matchTwo (fun c => c == '1') (between '0' '2') s
    ++ matchTwo (fun c => c == '0') (between '1' '9') s
    ++ matchOne (between '1' '9') s

/-- `%d`: `3[0-1]|[1-2]\d|0[1-9]|[1-9]| [1-9]`, alternatives in regex order. -/
def matchDay (s : List Char) : List (Nat × List Char) :=
  matchTwo (fun c => c == '3') (between '0' '1') s
    ++ matchTwo (between '1' '2') isDigitChar s
    ++ matchTwo (fun c => c == '0') (between '1' '9') s
    ++ matchOne (between '1' '9') s
    ++ matchSpaceDigit s

/-- `%H`: `2[0-3]|[0-1]\d|\d`, alternatives in regex order. -/
def matchHour (s : List Char) : List (Nat × List Char) :=
  matchTwo (fun c => c == '2') (between '0' '3') s
    ++ matchTwo (between '0' '1') isDigitChar s
    ++ matchOne isDigitChar s

/-- `%M`: `[0-5]\d|\d`, alternatives in regex order. -/
def matchMinute (s : List Char) : List (Nat × List Char) :=
  matchTwo (between '0' '5') isDigitChar s ++ matchOne isDigitChar s

/-- The `\s+` standing for the format's literal space: consume at least one
whitespace character, greedily (longest first, as the quantifier backtracks). -/
def matchWs (s : List Char) : List (List Char) :=
  (List.range (s.takeWhile isSpaceChar).length).map
    (fun i => s.drop ((s.takeWhile isSpaceChar).length - i))

/-- All full-pattern matches of `'%Y-%m-%d %H:%M'` against `s`, in the
backtracking order of the regex engine (depth first, earlier alternatives
first); each match carries the remaining unconverted characters. -/
def allMatches (s : List Char) : List (PyDateTime × List Char) :=
  (matchY s).flatMap fun ys =>
  (matchLit '-' ys.2).flatMap fun s1 =>
  (matchMonth s1).flatMap fun ms =>
  (matchLit '-' ms.2).flatMap fun s2 =>
  (matchDay s2).flatMap fun ds =>
  (matchWs ds.2).flatMap fun s3 =>
  (matchHour s3).flatMap fun hs =>
  (matchLit ':' hs.2).flatMap fun s4 =>
  (matchMinute s4).map fun mis =>
  (⟨ys.1, ms.1, ds.1, hs.1, mis.1⟩, mis.2)

/-- Outcome of `strptime` given the regex engine's first match (if any): no
match and unconverted trailing data are `ValueError`, and the final
`datetime(...)` call rejects invalid calendar values. -/
def strptimeResult : Option (PyDateTime × List Char) → Except PyErr PyDateTime
  | Option.none => Except.error PyErr.valueError
  | some (d, []) =>
      if d.valid then Except.ok d else Except.error PyErr.valueError
  | some (_, _ :: _) => Except.error PyErr.valueError

/-- `datetime.strptime(s, '%Y-%m-%d %H:%M')`. -/
def pyStrptime (s : String) : Except PyErr PyDateTime :=
  strptimeResult (allMatches s.data).head?

/-- Python dynamic values that can reach a record field in this program. -/
inductive PyVal where
  | none
  | int (n : Int)
  | str (s : String)
  | dt (d : PyDateTime)
deriving DecidableEq

/-- Python `int(value)`: identity on integers, literal parsing on strings,
`TypeError` on `None` (and on `datetime`, which defines no `__int__`). -/
def pyInt : PyVal → Except PyErr Int
  | PyVal.int n => Except.ok n
  | PyVal.str s => pyIntOfString s
  | PyVal.none => Except.error PyErr.typeError
  | PyVal.dt _ => Except.error PyErr.typeError

/-- Python `str(value)` as the `csv` writer applies it to a cell; `csv`
writes `None` as the empty field. -/
def pyStrOfVal : PyVal → String
  | PyVal.none => ""
  | PyVal.int n => pyStrOfInt n
  | PyVal.str s => s
  | PyVal.dt d => d.isoStr

/-- `BankVisit._parse_date`: `datetime.strptime(date_str, '%Y-%m-%d %H:%M')`,
re-raising any `ValueError` with the Russian message (the error class is
unchanged). -/
def BankVisit.parse_date (date_str : String) : Except PyErr PyDateTime :=
  match pyStrptime date_str with
  | Except.ok d => Except.ok d
  | Except.error _ => Except.error PyErr.valueError

/-- `BankVisit.__setattr__`: the value stored for attribute `name`.  `vid` is
coerced with `int(value)`; a string assigned to `date` is parsed with
`_parse_date`; anything else is stored unchanged. -/
def setattrValue (name : String) (value : PyVal) : Except PyErr PyVal :=
  if name == "vid" then
    match pyInt value with
    | Except.ok n => Except.ok (PyVal.int n)
    | Except.error e => Except.error e
  else if name == "date" then
    match value with
    | PyVal.str s =>
      match BankVisit.parse_date s with
      | Except.ok d => Except.ok (PyVal.dt d)
      | Except.error e => Except.error e
    | v => Except.ok v
  else Except.ok value

/-- A `BankVisit` object: its four attributes as stored by `__setattr__`. -/
structure BankVisit where
  vid : PyVal
  full_name : PyVal
  date : PyVal
  visit_type : PyVal
deriving DecidableEq

/-- `BankVisit.__init__`: assigns `vid`, `full_name`, `date`, `visit_type` in
source order, each through `__setattr__`; the first exception propagates. -/
def BankVisit.make (vid full_name date visit_type : PyVal) : Except PyErr BankVisit := do
  let v ← setattrValue "vid" vid
  let f ← setattrValue "full_name" full_name
  let d ← setattrValue "date" date
  let t ← setattrValue "visit_type" visit_type
  Except.ok ⟨v, f, d, t⟩

/-- One output row of `save_csv`: `[visit.vid, visit.full_name,
visit.date.strftime('%Y-%m-%d %H:%M'), visit.visit_type]`, each cell
stringified by the `csv` writer.  `.strftime` on a non-datetime `date`
(e.g. `None`) raises `AttributeError`. -/
def BankVisit.saveRow (v : BankVisit) : Except PyErr (List String) :=
  match v.date with
  | PyVal.dt d =>
      Except.ok [pyStrOfVal v.vid, pyStrOfVal v.full_name, d.strftimeYMDHM,
        pyStrOfVal v.visit_type]
  | _ => Except.error PyErr.attributeError

/-- A `VisitCollection`: the `_visits` list and the shared iteration cursor
`_current` (`__init__` sets both to empty/zero). -/
structure VisitCollection where
  _visits : List BankVisit
  _current : Nat
deriving DecidableEq

/-- `VisitCollection()`. -/
def VisitCollection.init : VisitCollection := ⟨[], 0⟩

/-- `VisitCollection.add`: appends (the `isinstance` guard always passes here
because the argument is a `BankVisit` by type). -/
def VisitCollection.add (c : VisitCollection) (v : BankVisit) : VisitCollection :=
  ⟨c._visits ++ [v], c._current⟩

/-- Python list indexing: a negative index is offset by the length once. -/
def pyIndex (i : Int) (n : Nat) : Int := if i < 0 then i + n else i

/-- `VisitCollection.__getitem__`: `self._visits[index]` with Python list
semantics — negative indices wrap once, anything out of `[-n, n)` raises
`IndexError`. -/
def VisitCollection.getitem (c : VisitCollection) (i : Int) : Except PyErr BankVisit :=
  if h : 0 ≤ pyIndex i c._visits.length ∧
      pyIndex i c._visits.length < (c._visits.length : Int) then
    Except.ok (c._visits.get ⟨(pyIndex i c._visits.length).toNat, by omega⟩)
  else Except.error PyErr.indexError

/-- `VisitCollection.__next__`: yields the record at the cursor and advances,
or — once the cursor reaches the end — resets the cursor to 0 and raises
`StopIteration` (modelled as `Option.none`).  `__iter__` returns `self`, so
the cursor is shared by all traversals. -/
def VisitCollection.next (c : VisitCollection) : Option BankVisit × VisitCollection :=
  if h : c._current < c._visits.length then
    (some (c._visits.get ⟨c._current, h⟩), ⟨c._visits, c._current + 1⟩)
  else (Option.none, ⟨c._visits, 0⟩)

/-- A `for` loop over the collection, driven by `__next__` until
`StopIteration`: the yielded records and the final collection state.  The
fuel bounds the number of `__next__` calls; `length + 1` always suffices. -/
def runForAux : Nat → VisitCollection → List BankVisit × VisitCollection
  | 0, c => ([], c)
  | fuel + 1, c =>
    match VisitCollection.next c with
    | (Option.none, c2) => ([], c2)
    | (some v, c2) =>
      let p := runForAux fuel c2
      (v :: p.1, p.2)

/-- A full `for visit in collection` traversal from the current state. -/
def VisitCollection.runFor (c : VisitCollection) : List BankVisit × VisitCollection :=
  runForAux (c._visits.length + 1) c

/-- The header row written by `save_csv` and expected by `from_csv`. -/
def csvHeader : List String := ["№", "ФИО", "Дата и время", "Тип обращения"]

/-- `row[key]` on a `csv.DictReader` row: `KeyError` when the header lacks the
column; `None` (`restval`) when the data row is shorter than the header. -/
def dictGet (fieldnames row : List String) (key : String) : Except PyErr PyVal :=
  match fieldnames.findIdx? (· == key) with
  | Option.none => Except.error PyErr.keyError
  | some i =>
    match row.get? i with
    | some s => Except.ok (PyVal.str s)
    | Option.none => Except.ok PyVal.none

/-- The `BankVisit(...)` call inside `from_csv`: the four keyword arguments
are looked up in source order, then the constructor runs. -/
def buildVisit (fieldnames row : List String) : Except PyErr BankVisit := do
  let vid ← dictGet fieldnames row "№"
  let fn ← dictGet fieldnames row "ФИО"
  let dt ← dictGet fieldnames row "Дата и время"
  let vt ← dictGet fieldnames row "Тип обращения"
  BankVisit.make vid fn dt vt

/-- The diagnostic printed for a skipped row (the Python code prints the row
dict and the exception; the model keeps the row's cells). -/
def mkRowError (row : List String) : String :=
  "Ошибка в строке: " ++ String.intercalate "," row

/-- The data-row loop of `from_csv`: blank rows are skipped by `DictReader`;
a `ValueError` or `KeyError` from the construction is printed and the row
skipped; any other exception propagates and aborts the load. -/
def fromCsvRows (fieldnames : List String) :
    List (List String) → VisitCollection → List String →
    Except PyErr (VisitCollection × List String)
  | [], c, rep => Except.ok (c, rep)
  | row :: rest, c, rep =>
    if row.isEmpty then fromCsvRows fieldnames rest c rep
    else
      match buildVisit fieldnames row with
      | Except.ok v => fromCsvRows fieldnames rest (c.add v) rep
      | Except.error PyErr.valueError => fromCsvRows fieldnames rest c (rep ++ [mkRowError row])
      | Except.error PyErr.keyError => fromCsvRows fieldnames rest c (rep ++ [mkRowError row])
      | Except.error e => Except.error e

/-- `VisitCollection.from_csv`: `Option.none` stands for a missing file
(`FileNotFoundError` is caught, a message printed, and the empty collection
returned); otherwise the first row is the `DictReader` header and the data
rows are processed in file order. -/
def VisitCollection.from_csv (file : Option (List (List String))) :
    Except PyErr (VisitCollection × List String) :=
  match file with
  | Option.none =>
      Except.ok (VisitCollection.init, ["Файл не найден. Будет создан новый при сохранении."])
  | some [] => Except.ok (VisitCollection.init, [])
  | some (header :: body) => fromCsvRows header body VisitCollection.init []

/-- The writer loop of `save_csv` over the stored records. -/
def saveRows : List BankVisit → Except PyErr (List (List String))
  | [] => Except.ok []
  | v :: rest => do
    let r ← v.saveRow
    let rs ← saveRows rest
    Except.ok (r :: rs)

/-- `VisitCollection.save_csv`: the header row, then one row per record in
sequence order. -/
def VisitCollection.save_csv (c : VisitCollection) : Except PyErr (List (List String)) :=
  match saveRows c._visits with
  | Except.ok rows => Except.ok (csvHeader :: rows)
  | Except.error e => Except.error e

/-- Modelled from the spec: the "exact format `YYYY-MM-DD HH:MM`"
(zero-padded) — sixteen characters: four digits, `-`, two digits, `-`, two
digits, one space, two digits, `:`, two digits.  Stated from the spec's words
to compare with what the code accepts. -/
def specStrictShape (s : String) : Bool :=
  match s.data with
  | [y1, y2, y3, y4, s1, m1, m2, s2, d1, d2, sp, h1, h2, co, i1, i2] =>
    isDigitChar y1 && isDigitChar y2 && isDigitChar y3 && isDigitChar y4 &&
    s1 == '-' && isDigitChar m1 && isDigitChar m2 && s2 == '-' &&
    isDigitChar d1 && isDigitChar d2 && sp == ' ' && isDigitChar h1 &&
    isDigitChar h2 && co == ':' && isDigitChar i1 && isDigitChar i2
  | _ => false

/-- Declarative year field: exactly four digits, decimal value. -/
def YearForm (l : List Char) (v : Nat) : Prop :=
  ∃ a b c e, l = [a, b, c, e] ∧
    isDigitChar a = true ∧ isDigitChar b = true ∧ isDigitChar c = true ∧
    isDigitChar e = true ∧
    v = digitVal a * 1000 + digitVal b * 100 + digitVal c * 10 + digitVal e

/-- Declarative month field: `10`–`12`, `01`–`09`, or a single digit `1`–`9`. -/
def MonthForm (l : List Char) (v : Nat) : Prop :=
  (∃ b, l = ['1', b] ∧ between '0' '2' b = true ∧ v = 10 + digitVal b)
  ∨ (∃ b, l = ['0', b] ∧ between '1' '9' b = true ∧ v = digitVal b)
  ∨ (∃ a, l = [a] ∧ between '1' '9' a = true ∧ v = digitVal a)

/-- Declarative day field: `30`–`31`, `10`–`29`, `01`–`09`, a single digit
`1`–`9`, or a space followed by a digit `1`–`9`. -/
def DayForm (l : List Char) (v : Nat) : Prop :=
  (∃ b, l = ['3', b] ∧ between '0' '1' b = true ∧ v = 30 + digitVal b)
  ∨ (∃ a b, l = [a, b] ∧ between '1' '2' a = true ∧ isDigitChar b = true ∧
      v = digitVal a * 10 + digitVal b)
  ∨ (∃ b, l = ['0', b] ∧ between '1' '9' b = true ∧ v = digitVal b)
  ∨ (∃ a, l = [a] ∧ between '1' '9' a = true ∧ v = digitVal a)
  ∨ (∃ b, l = [' ', b] ∧ between '1' '9' b = true ∧ v = digitVal b)

/-- Declarative hour field: `20`–`23`, `00`–`19`, or a single digit. -/
def HourForm (l : List Char) (v : Nat) : Prop :=
  (∃ b, l = ['2', b] ∧ between '0' '3' b = true ∧ v = 20 + digitVal b)
  ∨ (∃ a b, l = [a, b] ∧ between '0' '1' a = true ∧ isDigitChar b = true ∧
      v = digitVal a * 10 + digitVal b)
  ∨ (∃ a, l = [a] ∧ isDigitChar a = true ∧ v = digitVal a)

/-- Declarative minute field: `00`–`59` or a single digit. -/
def MinuteForm (l : List Char) (v : Nat) : Prop :=
  (∃ a b, l = [a, b] ∧ between '0' '5' a = true ∧ isDigitChar b = true ∧
      v = digitVal a * 10 + digitVal b)
  ∨ (∃ a, l = [a] ∧ isDigitChar a = true ∧ v = digitVal a)

/-- Declarative characterization of the date-time texts the parser can accept
(the format `'%Y-%m-%d %H:%M'` read as a grammar): year, `-`, month, `-`,
day, at least one whitespace character, hour, `:`, minute. -/
def LooseMatch (s : List Char) (d : PyDateTime) : Prop :=
  ∃ ycs mcs dcs wcs hcs mics,
    s = ycs ++ ['-'] ++ mcs ++ ['-'] ++ dcs ++ wcs ++ hcs ++ [':'] ++ mics ∧
    YearForm ycs d.year ∧ MonthForm mcs d.month ∧ DayForm dcs d.day ∧
    wcs ≠ [] ∧ (∀ c ∈ wcs, isSpaceChar c = true) ∧
    HourForm hcs d.hour ∧ MinuteForm mics d.minute

/-- A record holding validated field values whose timestamp year has four
significant digits (so that `strftime('%Y')` re-renders it four digits wide). -/
def WF1000 (v : BankVisit) : Prop :=
  ∃ n fn d vt, v = ⟨PyVal.int n, PyVal.str fn, PyVal.dt d, PyVal.str vt⟩ ∧
    d.valid = true ∧ 1000 ≤ d.year

/-- A sample record used by concrete witnesses. -/
def visitA : BankVisit :=
  ⟨PyVal.int 1, PyVal.str "Anna Ivanova", PyVal.dt ⟨2024, 1, 5, 9, 0⟩, PyVal.str "Deposit"⟩

/-- A second sample record used by concrete witnesses. -/
def visitB : BankVisit :=
  ⟨PyVal.int 3, PyVal.str "Ivan Petrov", PyVal.dt ⟨2024, 3, 1, 10, 30⟩,
    PyVal.str "Account opening"⟩


/-- Value accumulated by reading a list of digit characters decimal-wise. -/
def digitsFold (a : Nat) (l : List Char) : Nat :=
  l.foldl (fun x c => x * 10 + digitVal c) a

theorem digit_aux_isDigit (k : Nat) (h : k < 10) :
    isDigitChar (Char.ofNat (48 + k)) = true := by
  interval_cases k <;> decide

theorem digit_aux_val (k : Nat) (h : k < 10) : digitVal (Char.ofNat (48 + k)) = k := by
  interval_cases k <;> decide

theorem digit_aux_space (k : Nat) (h : k < 10) :
    isSpaceChar (Char.ofNat (48 + k)) = false := by
  interval_cases k <;> decide

theorem digit_aux_beq_digit (k a : Nat) (hk : k < 10) (ha : a < 10) :
    (Char.ofNat (48 + k) == Char.ofNat (48 + a)) = decide (k = a) := by
  interval_cases k <;> interval_cases a <;> decide

theorem digit_aux_between (lo hi k : Nat) (hlo : lo < 10) (hhi : hi < 10) (hk : k < 10) :
    between (Char.ofNat (48 + lo)) (Char.ofNat (48 + hi)) (Char.ofNat (48 + k))
      = decide (lo ≤ k ∧ k ≤ hi) := by
  interval_cases lo <;> interval_cases hi <;> interval_cases k <;> decide

theorem mod10_lt (r : Nat) : r % 10 < 10 := Nat.mod_lt _ (by omega)

theorem isDigitChar_digitChar (r : Nat) : isDigitChar (digitChar r) = true :=
  digit_aux_isDigit (r % 10) (mod10_lt r)

theorem digitVal_digitChar (r : Nat) : digitVal (digitChar r) = r % 10 :=
  digit_aux_val (r % 10) (mod10_lt r)

theorem isSpaceChar_digitChar (r : Nat) : isSpaceChar (digitChar r) = false :=
  digit_aux_space (r % 10) (mod10_lt r)

theorem digitChar_beq (c : Char) (hc : isDigitChar c = false) (r : Nat) :
    (digitChar r == c) = false := by
  cases heq : digitChar r == c
  · rfl
  · rw [beq_iff_eq] at heq
    rw [← heq, isDigitChar_digitChar r] at hc
    cases hc

theorem digitChar_beq_digit (r a : Nat) (ha : a < 10) :
    (digitChar r == digitChar a) = decide (r % 10 = a) := by
  have h1 : digitChar a = Char.ofNat (48 + a) := by
    simp only [digitChar, Nat.mod_eq_of_lt ha]
  rw [show digitChar r = Char.ofNat (48 + r % 10) from rfl, h1]
  exact digit_aux_beq_digit (r % 10) a (mod10_lt r) ha

theorem between_digitChar (lo hi : Nat) (hlo : lo < 10) (hhi : hi < 10) (r : Nat) :
    between (digitChar lo) (digitChar hi) (digitChar r)
      = decide (lo ≤ r % 10 ∧ r % 10 ≤ hi) := by
  have h1 : digitChar lo = Char.ofNat (48 + lo) := by
    simp only [digitChar, Nat.mod_eq_of_lt hlo]
  have h2 : digitChar hi = Char.ofNat (48 + hi) := by
    simp only [digitChar, Nat.mod_eq_of_lt hhi]
  rw [h1, h2, show digitChar r = Char.ofNat (48 + r % 10) from rfl]
  exact digit_aux_between lo hi (r % 10) hlo hhi (mod10_lt r)

theorem natToDigitsAux_zero (fuel : Nat) (acc : List Char) :
    natToDigitsAux fuel 0 acc = acc := by
  cases fuel <;> simp [natToDigitsAux]

theorem natToDigitsAux_step (fuel n : Nat) (acc : List Char) (hf : 1 ≤ fuel) (hn : n ≠ 0) :
    natToDigitsAux fuel n acc = natToDigitsAux (fuel - 1) (n / 10) (digitChar n :: acc) := by
  obtain ⟨f, rfl⟩ : ∃ f, fuel = f + 1 := ⟨fuel - 1, by omega⟩
  simp [natToDigitsAux, hn]

theorem natToDigitsAux_append : ∀ (fuel n : Nat) (acc : List Char),
    natToDigitsAux fuel n acc = natToDigitsAux fuel n [] ++ acc := by
  intro fuel
  induction fuel with
  | zero => intro n acc; simp [natToDigitsAux]
  | succ f ih =>
    intro n acc
    by_cases hn : n = 0
    · simp [natToDigitsAux, hn]
    · simp only [natToDigitsAux, if_neg hn]
      rw [ih (n / 10) (digitChar n :: acc), ih (n / 10) [digitChar n]]
      simp

theorem natToDigitsAux_chars : ∀ (fuel n : Nat) (acc : List Char),
    (∀ c ∈ acc, ∃ r, c = digitChar r) →
    ∀ c ∈ natToDigitsAux fuel n acc, ∃ r, c = digitChar r := by
  intro fuel
  induction fuel with
  | zero => intro n acc hacc; simpa [natToDigitsAux] using hacc
  | succ f ih =>
    intro n acc hacc c hc
    by_cases hn : n = 0
    · subst hn
      rw [natToDigitsAux_zero] at hc
      exact hacc c hc
    · simp only [natToDigitsAux, if_neg hn] at hc
      refine ih (n / 10) (digitChar n :: acc) ?_ c hc
      intro x hx
      rcases List.mem_cons.mp hx with h | h
      · exact ⟨n, h⟩
      · exact hacc x h

theorem natToDigitsAux_ne_nil (fuel n : Nat) (hf : 1 ≤ fuel) (hn : n ≠ 0) :
    natToDigitsAux fuel n [] ≠ [] := by
  rw [natToDigitsAux_step fuel n [] hf hn, natToDigitsAux_append]
  simp

theorem digitsFold_cons (a : Nat) (c : Char) (l : List Char) :
    digitsFold a (c :: l) = digitsFold (a * 10 + digitVal c) l := rfl

theorem digitsFold_natToDigitsAux : ∀ (fuel n : Nat), n ≤ fuel → n ≠ 0 → ∀ a : Nat,
    digitsFold a (natToDigitsAux fuel n [])
      = a * 10 ^ (natToDigitsAux fuel n []).length + n := by
  intro fuel
  induction fuel with
  | zero =>
    intro n h hn a
    omega
  | succ f ih =>
    intro n h hn a
    rw [natToDigitsAux_step (f + 1) n [] (by omega) hn]
    simp only [Nat.add_sub_cancel]
    by_cases hq : n / 10 = 0
    · rw [hq, natToDigitsAux_zero]
      have hlt : n < 10 := by omega
      simp only [digitsFold, List.foldl_cons, List.foldl_nil, List.length_cons,
        List.length_nil, digitVal_digitChar, pow_one, Nat.zero_add]
      omega
    · rw [natToDigitsAux_append]
      have hle : n / 10 ≤ f := by omega
      rw [digitsFold, List.foldl_append, ← digitsFold, ← digitsFold,
        ih (n / 10) hle hq a]
      simp only [digitsFold, List.foldl_cons, List.foldl_nil, List.length_append,
        List.length_cons, List.length_nil, digitVal_digitChar]
      rw [pow_succ, ← mul_assoc]
      omega

theorem digitsRest_all_digits : ∀ (l : List Char), (∀ c ∈ l, isDigitChar c = true) →
    ∀ a : Nat, digitsRest a l = some (digitsFold a l) := by
  intro l
  induction l with
  | nil => intro _ a; simp [digitsRest, digitsFold]
  | cons c t ih =>
    intro h a
    have hc : isDigitChar c = true := h c (by simp)
    have hne : (c == '_') = false := by
      cases heq : c == '_'
      · rfl
      · rw [beq_iff_eq] at heq
        subst heq
        exact absurd hc (by decide)
    cases t with
    | nil =>
      simp only [digitsRest, hne, Bool.false_eq_true, if_false, hc, if_true]
      simp [digitsFold, digitVal]
    | cons c2 t2 =>
      simp only [digitsRest, hne, Bool.false_eq_true, if_false, hc, if_true]
      rw [ih (fun x hx => h x (List.mem_cons_of_mem c hx))]
      simp only [digitsFold_cons]

theorem parseUnsigned_natToDigits (n : Nat) (hn : n ≠ 0) :
    parseUnsigned (natToDigitsAux n n []) = some n := by
  have hchars : ∀ c ∈ natToDigitsAux n n [], ∃ r, c = digitChar r :=
    natToDigitsAux_chars n n [] (by simp)
  have hdig : ∀ c ∈ natToDigitsAux n n [], isDigitChar c = true := by
    intro c hc
    obtain ⟨r, rfl⟩ := hchars c hc
    exact isDigitChar_digitChar r
  have hfold : digitsFold 0 (natToDigitsAux n n []) = n := by
    rw [digitsFold_natToDigitsAux n n (le_refl n) hn 0]
    simp
  cases hl : natToDigitsAux n n [] with
  | nil => exact absurd hl (natToDigitsAux_ne_nil n n (by omega) hn)
  | cons c t =>
    rw [hl] at hdig hfold
    have hc : isDigitChar c = true := hdig c (by simp)
    simp only [parseUnsigned, hc, if_true]
    rw [digitsRest_all_digits t (fun x hx => hdig x (List.mem_cons_of_mem c hx))]
    rw [digitsFold_cons] at hfold
    simp only [Nat.zero_mul, Nat.zero_add] at hfold
    rw [hfold]

theorem dropWhile_nonspace (l : List Char) (h : ∀ c ∈ l, isSpaceChar c = false) :
    l.dropWhile isSpaceChar = l := by
  cases l with
  | nil => rfl
  | cons a t =>
    rw [List.dropWhile_cons, h a (by simp)]
    simp

theorem stripBoth_eq_self (l : List Char) (h : ∀ c ∈ l, isSpaceChar c = false) :
    stripBoth l = l := by
  unfold stripBoth
  rw [dropWhile_nonspace l h,
    dropWhile_nonspace l.reverse (fun c hc => h c (List.mem_reverse.mp hc))]
  simp

theorem pyIntOfString_pyStrOfNat (n : Nat) (hn : n ≠ 0) :
    pyIntOfString (pyStrOfNat n) = Except.ok (n : Int) := by
  have hdata : (pyStrOfNat n).data = natToDigitsAux n n [] := by
    unfold pyStrOfNat
    simp [if_neg hn]
  have hchars : ∀ c ∈ natToDigitsAux n n [], ∃ r, c = digitChar r :=
    natToDigitsAux_chars n n [] (by simp)
  have hstrip : stripBoth (natToDigitsAux n n []) = natToDigitsAux n n [] := by
    refine stripBoth_eq_self _ (fun c hc => ?_)
    obtain ⟨r, rfl⟩ := hchars c hc
    exact isSpaceChar_digitChar r
  unfold pyIntOfString
  rw [hdata, hstrip]
  cases hl : natToDigitsAux n n [] with
  | nil => exact absurd hl (natToDigitsAux_ne_nil n n (by omega) hn)
  | cons c t =>
    have hc : ∃ r, c = digitChar r := by
      refine hchars c ?_
      rw [hl]
      simp
    obtain ⟨r, rfl⟩ := hc
    simp only [pyIntCore, digitChar_beq '+' (by decide) r, digitChar_beq '-' (by decide) r,
      Bool.false_eq_true, if_false]
    have := parseUnsigned_natToDigits n hn
    rw [hl] at this
    rw [this]

theorem pyIntOfString_pyStrOfInt (n : Int) :
    pyIntOfString (pyStrOfInt n) = Except.ok n := by
  by_cases hneg : n < 0
  · have habs : n.natAbs ≠ 0 := by omega
    have hdata : (pyStrOfInt n).data = '-' :: natToDigitsAux n.natAbs n.natAbs [] := by
      unfold pyStrOfInt pyStrOfNat
      rw [if_pos hneg, if_neg habs]
      rfl
    have hchars : ∀ c ∈ natToDigitsAux n.natAbs n.natAbs [], ∃ r, c = digitChar r :=
      natToDigitsAux_chars n.natAbs n.natAbs [] (by simp)
    have hstrip : stripBoth ('-' :: natToDigitsAux n.natAbs n.natAbs [])
        = '-' :: natToDigitsAux n.natAbs n.natAbs [] := by
      refine stripBoth_eq_self _ (fun c hc => ?_)
      rcases List.mem_cons.mp hc with h | h
      · rw [h]; decide
      · obtain ⟨r, rfl⟩ := hchars c h
        exact isSpaceChar_digitChar r
    unfold pyIntOfString
    rw [hdata, hstrip]
    simp only [pyIntCore, show (('-' : Char) == '+') = false from rfl,
      show (('-' : Char) == '-') = true from rfl, Bool.false_eq_true, if_false, if_true,
      parseUnsigned_natToDigits n.natAbs habs]
    congr 1
    omega
  · by_cases hz : n = 0
    · subst hz
      decide
    · have habs : n.natAbs ≠ 0 := by omega
      have hdata : pyStrOfInt n = pyStrOfNat n.natAbs := by
        unfold pyStrOfInt
        rw [if_neg hneg]
      rw [hdata, pyIntOfString_pyStrOfNat n.natAbs habs]
      congr 1
      omega

theorem pad2_data (n : Nat) (h : n < 100) :
    (pad2 n).data = [digitChar (n / 10), digitChar n] := by
  interval_cases n <;> decide

theorem year_data (y : Nat) (h1 : 1000 ≤ y) (h2 : y ≤ 9999) :
    (pyStrOfNat y).data
      = [digitChar (y / 1000), digitChar (y / 100), digitChar (y / 10), digitChar y] := by
  unfold pyStrOfNat
  rw [if_neg (by omega)]
  show natToDigitsAux y y [] = _
  rw [natToDigitsAux_step _ _ _ (by omega) (by omega),
    natToDigitsAux_step _ _ _ (by omega) (by omega),
    natToDigitsAux_step _ _ _ (by omega) (by omega),
    natToDigitsAux_step _ _ _ (by omega) (by omega),
    show y / 10 / 10 / 10 / 10 = 0 from by omega, natToDigitsAux_zero]
  rw [show y / 10 / 10 / 10 = y / 1000 from by omega,
    show y / 10 / 10 = y / 100 from by omega]

theorem strftime_data (d : PyDateTime) (h1 : 1000 ≤ d.year) (h2 : d.year ≤ 9999)
    (hm : d.month < 100) (hd : d.day < 100) (hh : d.hour < 100) (hmi : d.minute < 100) :
    (d.strftimeYMDHM).data
      = digitChar (d.year / 1000) :: digitChar (d.year / 100) :: digitChar (d.year / 10)
        :: digitChar d.year :: '-' :: digitChar (d.month / 10) :: digitChar d.month
        :: '-' :: digitChar (d.day / 10) :: digitChar d.day :: ' '
        :: digitChar (d.hour / 10) :: digitChar d.hour :: ':'
        :: digitChar (d.minute / 10) :: digitChar d.minute :: [] := by
  unfold PyDateTime.strftimeYMDHM
  simp only [String.data_append, year_data d.year h1 h2, pad2_data _ hm, pad2_data _ hd,
    pad2_data _ hh, pad2_data _ hmi]
  rfl

theorem matchY_digits (a b c e : Nat) (rest : List Char) :
    matchY (digitChar a :: digitChar b :: digitChar c :: digitChar e :: rest)
      = [(a % 10 * 1000 + b % 10 * 100 + c % 10 * 10 + e % 10, rest)] := by
  simp [matchY, isDigitChar_digitChar, digitVal_digitChar]

theorem matchLit_cons_self (c : Char) (rest : List Char) :
    matchLit c (c :: rest) = [rest] := by
  simp [matchLit]

theorem matchLit_digitChar (c : Char) (hc : isDigitChar c = false) (r : Nat)
    (rest : List Char) : matchLit c (digitChar r :: rest) = [] := by
  simp [matchLit, digitChar_beq c hc r]

theorem matchWs_nonspace (c : Char) (hc : isSpaceChar c = false) (rest : List Char) :
    matchWs (c :: rest) = [] := by
  simp [matchWs, List.takeWhile_cons, hc]

theorem matchWs_single (c : Char) (hc : isSpaceChar c = false) (rest : List Char) :
    matchWs (' ' :: c :: rest) = [c :: rest] := by
  simp +decide [matchWs, List.takeWhile_cons, hc, List.range_succ]

theorem matchMonth_step (m : Nat) (hlo : 1 ≤ m) (hhi : m ≤ 12) (rest : List Char) :
    matchMonth (digitChar (m / 10) :: digitChar m :: rest)
      = (m, rest) :: (if 10 ≤ m then [(1, digitChar m :: rest)] else []) := by
  interval_cases m <;> simp +decide [matchMonth, matchTwo, matchOne]

theorem matchDay_step (dd : Nat) (hlo : 1 ≤ dd) (hhi : dd ≤ 31) (rest : List Char) :
    matchDay (digitChar (dd / 10) :: digitChar dd :: rest)
      = (dd, rest) :: (if 10 ≤ dd then
          [((if dd ≤ 29 then dd / 10 else 3), digitChar dd :: rest)] else []) := by
  interval_cases dd <;> simp +decide [matchDay, matchTwo, matchOne, matchSpaceDigit]

theorem matchHour_step (h : Nat) (hhi : h ≤ 23) (rest : List Char) :
    matchHour (digitChar (h / 10) :: digitChar h :: rest)
      = [(h, rest), ((if h ≤ 19 then h / 10 else 2), digitChar h :: rest)] := by
  interval_cases h <;> simp +decide [matchHour, matchTwo, matchOne]

theorem matchMinute_step (mi : Nat) (hhi : mi ≤ 59) (rest : List Char) :
    matchMinute (digitChar (mi / 10) :: digitChar mi :: rest)
      = [(mi, rest), (mi / 10, digitChar mi :: rest)] := by
  interval_cases mi <;> simp +decide [matchMinute, matchTwo, matchOne]

theorem ite_flatMap {α β : Type} (P : Prop) [Decidable P] (a b : List α) (f : α → List β) :
    (if P then a else b).flatMap f = if P then a.flatMap f else b.flatMap f := by
  split <;> rfl

theorem allMatches_strftime (d : PyDateTime)
    (hy1 : 1000 ≤ d.year) (hy2 : d.year ≤ 9999)
    (hm1 : 1 ≤ d.month) (hm2 : d.month ≤ 12)
    (hd1 : 1 ≤ d.day) (hd2 : d.day ≤ 31)
    (hh : d.hour ≤ 23) (hmi : d.minute ≤ 59) :
    (allMatches (d.strftimeYMDHM).data).head? = some (d, []) := by
  have hws : ∀ rest, matchWs (' ' :: digitChar (d.hour / 10) :: rest)
      = [digitChar (d.hour / 10) :: rest] :=
    fun rest => matchWs_single _ (isSpaceChar_digitChar _) rest
  have hwsn : ∀ rest, matchWs (digitChar d.day :: rest) = [] :=
    fun rest => matchWs_nonspace _ (isSpaceChar_digitChar _) rest
  have hkd : ∀ rest, matchLit '-' (digitChar d.month :: rest) = [] :=
    fun rest => matchLit_digitChar '-' (by decide) d.month rest
  have hkc : ∀ rest, matchLit ':' (digitChar d.hour :: rest) = [] :=
    fun rest => matchLit_digitChar ':' (by decide) d.hour rest
  rw [strftime_data d hy1 hy2 (by omega) (by omega) (by omega) (by omega)]
  unfold allMatches
  simp only [matchY_digits, matchLit_cons_self, matchMonth_step d.month hm1 hm2,
    matchDay_step d.day hd1 hd2, matchHour_step d.hour hh, matchMinute_step d.minute hmi,
    hws, hwsn, hkd, hkc, ite_flatMap, List.flatMap_cons, List.flatMap_nil,
    List.append_nil, List.nil_append, List.map_cons, List.map_nil, apply_ite, ite_self,
    List.head?_cons]
  rw [show d.year / 1000 % 10 * 1000 + d.year / 100 % 10 * 100 + d.year / 10 % 10 * 10
      + d.year % 10 = d.year from by omega]

theorem daysInMonth_le (y m : Nat) : daysInMonth y m ≤ 31 := by
  unfold daysInMonth
  split_ifs <;> omega

theorem valid_bounds (d : PyDateTime) (hv : d.valid = true) :
    1 ≤ d.year ∧ d.year ≤ 9999 ∧ 1 ≤ d.month ∧ d.month ≤ 12 ∧
    1 ≤ d.day ∧ d.day ≤ 31 ∧ d.hour ≤ 23 ∧ d.minute ≤ 59 := by
  have h := of_decide_eq_true hv
  have hdm := daysInMonth_le d.year d.month
  omega

theorem pyStrptime_strftime (d : PyDateTime) (hv : d.valid = true) (hy : 1000 ≤ d.year) :
    pyStrptime d.strftimeYMDHM = Except.ok d := by
  have hb := valid_bounds d hv
  unfold pyStrptime
  rw [allMatches_strftime d hy (by omega) (by omega) (by omega) (by omega) (by omega)
    (by omega) (by omega)]
  simp [strptimeResult, hv]

theorem parse_date_strftime (d : PyDateTime) (hv : d.valid = true) (hy : 1000 ≤ d.year) :
    BankVisit.parse_date d.strftimeYMDHM = Except.ok d := by
  unfold BankVisit.parse_date
  rw [pyStrptime_strftime d hv hy]

theorem pyStrptime_ok_valid (s : String) (d : PyDateTime)
    (h : pyStrptime s = Except.ok d) : d.valid = true := by
  unfold pyStrptime at h
  rcases hm : (allMatches s.data).head? with _ | p
  · rw [hm] at h
    simp [strptimeResult] at h
  · rcases p with ⟨d2, rest⟩
    rw [hm] at h
    cases rest with
    | nil =>
      simp only [strptimeResult] at h
      by_cases hv : d2.valid
      · rw [if_pos hv] at h
        cases h
        exact hv
      · rw [if_neg hv] at h
        cases h
    | cons a t => simp [strptimeResult] at h

theorem parse_date_ok (s : String) (d : PyDateTime)
    (h : BankVisit.parse_date s = Except.ok d) : pyStrptime s = Except.ok d := by
  unfold BankVisit.parse_date at h
  rcases hp : pyStrptime s with e | d2
  · rw [hp] at h
    cases h
  · rw [hp] at h
    cases h
    rfl

theorem make_ok_str_date (vid : PyVal) (n : Int) (fn s vt : String) (d : PyDateTime)
    (hvid : pyInt vid = Except.ok n) (hs : BankVisit.parse_date s = Except.ok d) :
    BankVisit.make vid (PyVal.str fn) (PyVal.str s) (PyVal.str vt)
      = Except.ok ⟨PyVal.int n, PyVal.str fn, PyVal.dt d, PyVal.str vt⟩ := by
  simp +decide [BankVisit.make, setattrValue, hvid, hs, Bind.bind, Except.bind]

theorem make_ok_dt_date (vid : PyVal) (n : Int) (fn vt : String) (d : PyDateTime)
    (hvid : pyInt vid = Except.ok n) :
    BankVisit.make vid (PyVal.str fn) (PyVal.dt d) (PyVal.str vt)
      = Except.ok ⟨PyVal.int n, PyVal.str fn, PyVal.dt d, PyVal.str vt⟩ := by
  simp +decide [BankVisit.make, setattrValue, hvid, Bind.bind, Except.bind]

theorem make_vid_error (vid fn dval vt : PyVal) (e : PyErr)
    (hvid : pyInt vid = Except.error e) :
    BankVisit.make vid fn dval vt = Except.error e := by
  simp +decide [BankVisit.make, setattrValue, hvid, Bind.bind, Except.bind]

theorem make_date_error (vid : PyVal) (n : Int) (fn vt : PyVal) (s : String) (e : PyErr)
    (hvid : pyInt vid = Except.ok n) (hs : BankVisit.parse_date s = Except.error e) :
    BankVisit.make vid fn (PyVal.str s) vt = Except.error e := by
  simp +decide [BankVisit.make, setattrValue, hvid, hs, Bind.bind, Except.bind]

theorem saveRow_wf (n : Int) (fn vt : String) (d : PyDateTime) :
    BankVisit.saveRow ⟨PyVal.int n, PyVal.str fn, PyVal.dt d, PyVal.str vt⟩
      = Except.ok [pyStrOfInt n, fn, d.strftimeYMDHM, vt] := rfl

theorem make_ok_shapes (vid fn dval vt : PyVal) (v : BankVisit)
    (h : BankVisit.make vid fn dval vt = Except.ok v)
    (hdv : (∃ s, dval = PyVal.str s) ∨ (∃ dd, dval = PyVal.dt dd)) :
    (∃ dd, v.date = PyVal.dt dd) ∧ (∃ n, v.vid = PyVal.int n) := by
  rcases hvid : pyInt vid with e | n
  · rw [make_vid_error vid fn dval vt e hvid] at h
    cases h
  · rcases hdv with ⟨s, rfl⟩ | ⟨dd, rfl⟩
    · rcases hpd : BankVisit.parse_date s with e | d
      · rw [make_date_error vid n fn vt s e hvid hpd] at h
        cases h
      · simp +decide [BankVisit.make, setattrValue, hvid, hpd, Bind.bind, Except.bind] at h
        rw [← h]
        exact ⟨⟨d, rfl⟩, ⟨n, rfl⟩⟩
    · simp +decide [BankVisit.make, setattrValue, hvid, Bind.bind, Except.bind] at h
      rw [← h]
      exact ⟨⟨dd, rfl⟩, ⟨n, rfl⟩⟩

theorem dictGet_h0 (a b c e : String) :
    dictGet csvHeader [a, b, c, e] "№" = Except.ok (PyVal.str a) := rfl

theorem dictGet_h1 (a b c e : String) :
    dictGet csvHeader [a, b, c, e] "ФИО" = Except.ok (PyVal.str b) := rfl

theorem dictGet_h2 (a b c e : String) :
    dictGet csvHeader [a, b, c, e] "Дата и время" = Except.ok (PyVal.str c) := rfl

theorem dictGet_h3 (a b c e : String) :
    dictGet csvHeader [a, b, c, e] "Тип обращения" = Except.ok (PyVal.str e) := rfl

theorem buildVisit_wf (n : Int) (fn vt : String) (d : PyDateTime)
    (hv : d.valid = true) (hy : 1000 ≤ d.year) :
    buildVisit csvHeader [pyStrOfInt n, fn, d.strftimeYMDHM, vt]
      = Except.ok ⟨PyVal.int n, PyVal.str fn, PyVal.dt d, PyVal.str vt⟩ := by
  unfold buildVisit
  rw [dictGet_h0, dictGet_h1, dictGet_h2, dictGet_h3]
  simp only [Bind.bind, Except.bind]
  exact make_ok_str_date (PyVal.str (pyStrOfInt n)) n fn d.strftimeYMDHM vt d
    (by simp [pyInt, pyIntOfString_pyStrOfInt]) (parse_date_strftime d hv hy)

theorem fromCsvRows_wf : ∀ (visits : List BankVisit), (∀ v ∈ visits, WF1000 v) →
    ∀ (rows : List (List String)), saveRows visits = Except.ok rows →
    ∀ (c : VisitCollection) (rep : List String),
    fromCsvRows csvHeader rows c rep = Except.ok (⟨c._visits ++ visits, c._current⟩, rep) := by
  intro visits
  induction visits with
  | nil =>
    intro _ rows hrows c rep
    simp only [saveRows] at hrows
    cases hrows
    simp [fromCsvRows]
  | cons v t ih =>
    intro h rows hrows c rep
    obtain ⟨n, fn, d, vt, rfl, hval, hyear⟩ := h v (List.mem_cons_self v t)
    rw [show saveRows (⟨PyVal.int n, PyVal.str fn, PyVal.dt d, PyVal.str vt⟩ :: t)
        = (match saveRows t with
           | Except.ok rs => Except.ok ([pyStrOfInt n, fn, d.strftimeYMDHM, vt] :: rs)
           | Except.error e => Except.error e) from by
      simp only [saveRows, saveRow_wf, Bind.bind, Except.bind]
      cases saveRows t <;> rfl] at hrows
    rcases hst : saveRows t with e | rs
    · rw [hst] at hrows
      cases hrows
    · rw [hst] at hrows
      cases hrows
      simp only [fromCsvRows, List.isEmpty_cons, Bool.false_eq_true, if_false,
        buildVisit_wf n fn vt d hval hyear]
      rw [ih (fun x hx => h x (List.mem_cons_of_mem _ hx)) rs hst (c.add _) rep]
      simp [VisitCollection.add]

theorem saveRows_wf : ∀ (visits : List BankVisit), (∀ v ∈ visits, WF1000 v) →
    ∃ rows, saveRows visits = Except.ok rows := by
  intro visits
  induction visits with
  | nil => intro _; exact ⟨[], rfl⟩
  | cons v t ih =>
    intro h
    obtain ⟨rs, hrs⟩ := ih (fun x hx => h x (List.mem_cons_of_mem _ hx))
    obtain ⟨n, fn, d, vt, rfl, _, _⟩ := h v (List.mem_cons_self v t)
    refine ⟨[pyStrOfInt n, fn, d.strftimeYMDHM, vt] :: rs, ?_⟩
    simp only [saveRows, saveRow_wf, Bind.bind, Except.bind, hrs]

theorem runForAux_drop : ∀ (fuel : Nat) (c : VisitCollection),
    c._visits.length - c._current < fuel → c._current ≤ c._visits.length →
    runForAux fuel c = (c._visits.drop c._current, ⟨c._visits, 0⟩) := by
  intro fuel
  induction fuel with
  | zero => intro c h1 h2; omega
  | succ f ih =>
    intro c h1 h2
    by_cases hcur : c._current < c._visits.length
    · have hnext : c.next = (some (c._visits.get ⟨c._current, hcur⟩),
          ⟨c._visits, c._current + 1⟩) := by simp [VisitCollection.next, hcur]
      simp only [runForAux, hnext]
      rw [ih ⟨c._visits, c._current + 1⟩
        (by show c._visits.length - (c._current + 1) < f; omega)
        (by show c._current + 1 ≤ c._visits.length; omega)]
      simp only [List.get_eq_getElem]
      rw [← List.drop_eq_getElem_cons hcur]
    · have hge : c._visits.length ≤ c._current := by omega
      have hnext : c.next = (Option.none, ⟨c._visits, 0⟩) := by
        simp [VisitCollection.next, hcur]
      simp only [runForAux, hnext]
      rw [List.drop_eq_nil_of_le hge]

theorem runFor_cursor_zero (c : VisitCollection) (h : c._current = 0) :
    c.runFor = (c._visits, ⟨c._visits, 0⟩) := by
  unfold VisitCollection.runFor
  rw [runForAux_drop (c._visits.length + 1) c (by omega) (by omega), h, List.drop_zero]

theorem takeWhile_length_le (p : Char → Bool) :
    ∀ l : List Char, (l.takeWhile p).length ≤ l.length := by
  intro l
  induction l with
  | nil => simp
  | cons a t ih =>
    rw [List.takeWhile_cons]
    cases p a
    · simp
    · simpa using ih

theorem take_takeWhile_sat (p : Char → Bool) :
    ∀ (l : List Char) (k : Nat), k ≤ (l.takeWhile p).length →
    ∀ c ∈ l.take k, p c = true := by
  intro l
  induction l with
  | nil => intro k _ c hc; simp at hc
  | cons a t ih =>
    intro k hk c hc
    rw [List.takeWhile_cons] at hk
    cases hpa : p a
    · rw [hpa] at hk
      simp at hk
      subst hk
      simp at hc
    · rw [hpa] at hk
      simp at hk
      cases k with
      | zero => simp at hc
      | succ k2 =>
        simp only [List.take_succ_cons] at hc
        rcases List.mem_cons.mp hc with rfl | hc2
        · exact hpa
        · exact ih k2 (by omega) c hc2

theorem mem_matchTwo {p1 p2 : Char → Bool} {p : Nat × List Char} {s : List Char}
    (h : p ∈ matchTwo p1 p2 s) :
    ∃ a b, s = a :: b :: p.2 ∧ p1 a = true ∧ p2 b = true
      ∧ p.1 = digitVal a * 10 + digitVal b := by
  rcases s with _ | ⟨a, _ | ⟨b, rest⟩⟩
  · simp [matchTwo] at h
  · simp [matchTwo] at h
  · simp only [matchTwo] at h
    rcases hcond : p1 a && p2 b with _ | _
    · rw [hcond] at h
      simp at h
    · rw [hcond] at h
      simp only [if_true] at h
      rcases List.mem_singleton.mp h with rfl
      simp only [Bool.and_eq_true] at hcond
      exact ⟨a, b, rfl, hcond.1, hcond.2, rfl⟩

theorem mem_matchOne {p1 : Char → Bool} {p : Nat × List Char} {s : List Char}
    (h : p ∈ matchOne p1 s) :
    ∃ a, s = a :: p.2 ∧ p1 a = true ∧ p.1 = digitVal a := by
  rcases s with _ | ⟨a, rest⟩
  · simp [matchOne] at h
  · simp only [matchOne] at h
    rcases hcond : p1 a with _ | _
    · rw [hcond] at h
      simp at h
    · rw [hcond] at h
      simp only [if_true] at h
      rcases List.mem_singleton.mp h with rfl
      exact ⟨a, rfl, hcond, rfl⟩

theorem mem_matchSpaceDigit {p : Nat × List Char} {s : List Char}
    (h : p ∈ matchSpaceDigit s) :
    ∃ b, s = ' ' :: b :: p.2 ∧ between '1' '9' b = true ∧ p.1 = digitVal b := by
  rcases s with _ | ⟨a, _ | ⟨b, rest⟩⟩
  · simp [matchSpaceDigit] at h
  · simp [matchSpaceDigit] at h
  · simp only [matchSpaceDigit] at h
    rcases hcond : (a == ' ') && between '1' '9' b with _ | _
    · rw [hcond] at h
      simp at h
    · rw [hcond] at h
      simp only [if_true] at h
      rcases List.mem_singleton.mp h with rfl
      simp only [Bool.and_eq_true] at hcond
      obtain ⟨h1, h2⟩ := hcond
      rw [beq_iff_eq] at h1
      subst h1
      exact ⟨b, rfl, h2, rfl⟩

theorem mem_matchLit {c : Char} {r s : List Char} (h : r ∈ matchLit c s) :
    s = c :: r := by
  rcases s with _ | ⟨a, t⟩
  · simp [matchLit] at h
  · simp only [matchLit] at h
    rcases hcond : a == c with _ | _
    · rw [hcond] at h
      simp at h
    · rw [hcond] at h
      simp only [if_true] at h
      rcases List.mem_singleton.mp h with rfl
      rw [beq_iff_eq] at hcond
      rw [hcond]

theorem mem_matchY {p : Nat × List Char} {s : List Char} (h : p ∈ matchY s) :
    ∃ ycs, s = ycs ++ p.2 ∧ YearForm ycs p.1 := by
  rcases s with _ | ⟨a, _ | ⟨b, _ | ⟨c, _ | ⟨e, rest⟩⟩⟩⟩
  · simp [matchY] at h
  · simp [matchY] at h
  · simp [matchY] at h
  · simp [matchY] at h
  · simp only [matchY] at h
    rcases hcond : isDigitChar a && isDigitChar b && isDigitChar c && isDigitChar e with _ | _
    · rw [hcond] at h
      simp at h
    · rw [hcond] at h
      simp only [if_true] at h
      rcases List.mem_singleton.mp h with rfl
      simp only [Bool.and_eq_true] at hcond
      exact ⟨[a, b, c, e], rfl,
        a, b, c, e, rfl, hcond.1.1.1, hcond.1.1.2, hcond.1.2, hcond.2, rfl⟩

theorem mem_matchMonth {p : Nat × List Char} {s : List Char} (h : p ∈ matchMonth s) :
    ∃ mcs, s = mcs ++ p.2 ∧ MonthForm mcs p.1 := by
  unfold matchMonth at h
  rcases List.mem_append.mp h with h2 | h3
  · rcases List.mem_append.mp h2 with h1 | h1
    · obtain ⟨a, b, rfl, ha, hb, hv⟩ := mem_matchTwo h1
      rw [beq_iff_eq] at ha
      subst ha
      exact ⟨['1', b], rfl, Or.inl ⟨b, rfl, hb, by rw [hv]; rfl⟩⟩
    · obtain ⟨a, b, rfl, ha, hb, hv⟩ := mem_matchTwo h1
      rw [beq_iff_eq] at ha
      subst ha
      exact ⟨['0', b], rfl, Or.inr (Or.inl ⟨b, rfl, hb, by rw [show digitVal '0' = (0 : Nat) from by decide] at hv; omega⟩)⟩
  · obtain ⟨a, rfl, ha, hv⟩ := mem_matchOne h3
    exact ⟨[a], rfl, Or.inr (Or.inr ⟨a, rfl, ha, hv⟩)⟩

theorem mem_matchDay {p : Nat × List Char} {s : List Char} (h : p ∈ matchDay s) :
    ∃ dcs, s = dcs ++ p.2 ∧ DayForm dcs p.1 := by
  unfold matchDay at h
  rcases List.mem_append.mp h with h4 | h5
  · rcases List.mem_append.mp h4 with h3 | h3b
    · rcases List.mem_append.mp h3 with h2 | h2b
      · rcases List.mem_append.mp h2 with h1 | h1b
        · obtain ⟨a, b, rfl, ha, hb, hv⟩ := mem_matchTwo h1
          rw [beq_iff_eq] at ha
          subst ha
          exact ⟨['3', b], rfl, Or.inl ⟨b, rfl, hb, by rw [show digitVal '3' = (3 : Nat) from by decide] at hv; omega⟩⟩
        · obtain ⟨a, b, rfl, ha, hb, hv⟩ := mem_matchTwo h1b
          exact ⟨[a, b], rfl, Or.inr (Or.inl ⟨a, b, rfl, ha, hb, hv⟩)⟩
      · obtain ⟨a, b, rfl, ha, hb, hv⟩ := mem_matchTwo h2b
        rw [beq_iff_eq] at ha
        subst ha
        exact ⟨['0', b], rfl, Or.inr (Or.inr (Or.inl ⟨b, rfl, hb, by rw [show digitVal '0' = (0 : Nat) from by decide] at hv; omega⟩))⟩
    · obtain ⟨a, rfl, ha, hv⟩ := mem_matchOne h3b
      exact ⟨[a], rfl, Or.inr (Or.inr (Or.inr (Or.inl ⟨a, rfl, ha, hv⟩)))⟩
  · obtain ⟨b, rfl, hb, hv⟩ := mem_matchSpaceDigit h5
    exact ⟨[' ', b], rfl, Or.inr (Or.inr (Or.inr (Or.inr ⟨b, rfl, hb, hv⟩)))⟩

theorem mem_matchHour {p : Nat × List Char} {s : List Char} (h : p ∈ matchHour s) :
    ∃ hcs, s = hcs ++ p.2 ∧ HourForm hcs p.1 := by
  unfold matchHour at h
  rcases List.mem_append.mp h with h2 | h3
  · rcases List.mem_append.mp h2 with h1 | h1
    · obtain ⟨a, b, rfl, ha, hb, hv⟩ := mem_matchTwo h1
      rw [beq_iff_eq] at ha
      subst ha
      exact ⟨['2', b], rfl, Or.inl ⟨b, rfl, hb, by rw [show digitVal '2' = (2 : Nat) from by decide] at hv; omega⟩⟩
    · obtain ⟨a, b, rfl, ha, hb, hv⟩ := mem_matchTwo h1
      exact ⟨[a, b], rfl, Or.inr (Or.inl ⟨a, b, rfl, ha, hb, hv⟩)⟩
  · obtain ⟨a, rfl, ha, hv⟩ := mem_matchOne h3
    exact ⟨[a], rfl, Or.inr (Or.inr ⟨a, rfl, ha, hv⟩)⟩

theorem mem_matchMinute {p : Nat × List Char} {s : List Char} (h : p ∈ matchMinute s) :
    ∃ mics, s = mics ++ p.2 ∧ MinuteForm mics p.1 := by
  unfold matchMinute at h
  rcases List.mem_append.mp h with h1 | h2
  · obtain ⟨a, b, rfl, ha, hb, hv⟩ := mem_matchTwo h1
    exact ⟨[a, b], rfl, Or.inl ⟨a, b, rfl, ha, hb, hv⟩⟩
  · obtain ⟨a, rfl, ha, hv⟩ := mem_matchOne h2
    exact ⟨[a], rfl, Or.inr ⟨a, rfl, ha, hv⟩⟩

theorem mem_matchWs {r s : List Char} (h : r ∈ matchWs s) :
    ∃ w, s = w ++ r ∧ w ≠ [] ∧ ∀ c ∈ w, isSpaceChar c = true := by
  unfold matchWs at h
  rw [List.mem_map] at h
  obtain ⟨i, hi, hr⟩ := h
  rw [List.mem_range] at hi
  have hlen : (s.takeWhile isSpaceChar).length ≤ s.length := takeWhile_length_le _ s
  refine ⟨s.take ((s.takeWhile isSpaceChar).length - i), ?_, ?_, ?_⟩
  · rw [← hr]
    exact (List.take_append_drop _ s).symm
  · have : (s.take ((s.takeWhile isSpaceChar).length - i)).length
        = (s.takeWhile isSpaceChar).length - i := by
      rw [List.length_take]
      omega
    intro hnil
    rw [hnil] at this
    simp at this
    omega
  · exact take_takeWhile_sat isSpaceChar s _ (by omega)

theorem allMatches_loose (s : List Char) (d : PyDateTime)
    (h : (d, ([] : List Char)) ∈ allMatches s) : LooseMatch s d := by
  unfold allMatches at h
  rw [List.mem_flatMap] at h
  obtain ⟨ys, hys, h⟩ := h
  rw [List.mem_flatMap] at h
  obtain ⟨s1, hs1, h⟩ := h
  rw [List.mem_flatMap] at h
  obtain ⟨ms, hms, h⟩ := h
  rw [List.mem_flatMap] at h
  obtain ⟨s2, hs2, h⟩ := h
  rw [List.mem_flatMap] at h
  obtain ⟨ds, hds, h⟩ := h
  rw [List.mem_flatMap] at h
  obtain ⟨s3, hs3, h⟩ := h
  rw [List.mem_flatMap] at h
  obtain ⟨hs, hhs, h⟩ := h
  rw [List.mem_flatMap] at h
  obtain ⟨s4, hs4, h⟩ := h
  rw [List.mem_map] at h
  obtain ⟨mis, hmis, hfin⟩ := h
  have hd : (⟨ys.1, ms.1, ds.1, hs.1, mis.1⟩ : PyDateTime) = d := congrArg Prod.fst hfin
  have hrest : mis.2 = [] := congrArg Prod.snd hfin
  obtain ⟨ycs, hy, hyf⟩ := mem_matchY hys
  have hlit1 := mem_matchLit hs1
  obtain ⟨mcs, hm, hmf⟩ := mem_matchMonth hms
  have hlit2 := mem_matchLit hs2
  obtain ⟨dcs, hdd, hdf⟩ := mem_matchDay hds
  obtain ⟨wcs, hw, hwne, hwsp⟩ := mem_matchWs hs3
  obtain ⟨hcs, hhh, hhf⟩ := mem_matchHour hhs
  have hlit3 := mem_matchLit hs4
  obtain ⟨mics, hmi, hmif⟩ := mem_matchMinute hmis
  refine ⟨ycs, mcs, dcs, wcs, hcs, mics, ?_, ?_, ?_, ?_, hwne, hwsp, ?_, ?_⟩
  · rw [hy, hlit1, hm, hlit2, hdd, hw, hhh, hlit3, hmi, hrest]
    simp
  · rw [← hd]
    exact hyf
  · rw [← hd]
    exact hmf
  · rw [← hd]
    exact hdf
  · rw [← hd]
    exact hhf
  · rw [← hd]
    exact hmif

theorem pyStrptime_ok_loose (s : String) (d : PyDateTime)
    (h : pyStrptime s = Except.ok d) : LooseMatch s.data d ∧ d.valid = true := by
  have hv : d.valid = true := pyStrptime_ok_valid s d h
  refine ⟨?_, hv⟩
  unfold pyStrptime at h
  rcases hl : allMatches s.data with _ | ⟨p, t⟩
  · rw [hl] at h
    simp [strptimeResult] at h
  · rw [hl] at h
    simp only [List.head?_cons] at h
    rcases p with ⟨d2, rest⟩
    cases rest with
    | nil =>
      have : d2 = d := by
        simp only [strptimeResult] at h
        by_cases hv2 : d2.valid
        · rw [if_pos hv2] at h
          cases h
          rfl
        · rw [if_neg hv2] at h
          cases h
      subst this
      exact allMatches_loose s.data d2 (by rw [hl]; exact List.mem_cons_self _ _)
    | cons a t2 => simp [strptimeResult] at h

theorem looseMatch_length (l : List Char) (d : PyDateTime) (h : LooseMatch l d) :
    8 ≤ l.length := by
  obtain ⟨ycs, mcs, dcs, wcs, hcs, mics, heq, hyf, _, _, hwne, _, _, _⟩ := h
  obtain ⟨a, b, c, e, rfl, _⟩ := hyf
  have hw : 1 ≤ wcs.length := by
    cases wcs
    · exact absurd rfl hwne
    · simp
  rw [heq]
  simp [List.length_append]
  omega

/-- C1 (counterexample): the round-trip fails as stated.  The input text
"0999-01-05 09:00" is in `YYYY-MM-DD HH:MM` form (four-digit, zero-padded) and
constructs a record, but `strftime('%Y')` renders year 999 without its leading
zero, and re-parsing the rendered row fails with `ValidationError` instead of
reproducing the record. -/
theorem c1_counterexample :
    BankVisit.make (PyVal.int 1) (PyVal.str "Anna") (PyVal.str "0999-01-05 09:00")
        (PyVal.str "Deposit")
      = Except.ok ⟨PyVal.int 1, PyVal.str "Anna", PyVal.dt ⟨999, 1, 5, 9, 0⟩,
          PyVal.str "Deposit"⟩
    ∧ BankVisit.saveRow ⟨PyVal.int 1, PyVal.str "Anna", PyVal.dt ⟨999, 1, 5, 9, 0⟩,
          PyVal.str "Deposit"⟩
      = Except.ok ["1", "Anna", "999-01-05 09:00", "Deposit"]
    ∧ BankVisit.make (PyVal.str "1") (PyVal.str "Anna") (PyVal.str "999-01-05 09:00")
        (PyVal.str "Deposit") = Except.error PyErr.valueError := by
  decide

/-- C1 (amended): for every valid input tuple whose date-time text denotes a
timestamp with year at least 1000, constructing a Record, rendering it as a row
(timestamp via `strftime '%Y-%m-%d %H:%M'`), and re-parsing that row yields a
Record identical in all four fields; the re-parsed timestamp is reproduced
exactly at minute precision. -/
theorem c1_roundtrip (vid : PyVal) (n : Int) (fn s vt : String) (d : PyDateTime)
    (hvid : pyInt vid = Except.ok n) (hs : BankVisit.parse_date s = Except.ok d)
    (hy : 1000 ≤ d.year) :
    BankVisit.make vid (PyVal.str fn) (PyVal.str s) (PyVal.str vt)
      = Except.ok ⟨PyVal.int n, PyVal.str fn, PyVal.dt d, PyVal.str vt⟩
    ∧ BankVisit.saveRow ⟨PyVal.int n, PyVal.str fn, PyVal.dt d, PyVal.str vt⟩
      = Except.ok [pyStrOfInt n, fn, d.strftimeYMDHM, vt]
    ∧ BankVisit.make (PyVal.str (pyStrOfInt n)) (PyVal.str fn)
        (PyVal.str d.strftimeYMDHM) (PyVal.str vt)
      = Except.ok ⟨PyVal.int n, PyVal.str fn, PyVal.dt d, PyVal.str vt⟩ := by
  have hv : d.valid = true := pyStrptime_ok_valid s d (parse_date_ok s d hs)
  exact ⟨make_ok_str_date vid n fn s vt d hvid hs, saveRow_wf n fn vt d,
    make_ok_str_date _ n fn _ vt d (by simp [pyInt, pyIntOfString_pyStrOfInt])
      (parse_date_strftime d hv hy)⟩

/-- C1 (witness): the round-trip law evaluated on the spec's sample row. -/
theorem c1_roundtrip_witness :
    BankVisit.make (PyVal.str "3") (PyVal.str "Ivan Petrov")
        (PyVal.str "2024-03-01 10:30") (PyVal.str "Account opening")
      = Except.ok ⟨PyVal.int 3, PyVal.str "Ivan Petrov", PyVal.dt ⟨2024, 3, 1, 10, 30⟩,
          PyVal.str "Account opening"⟩
    ∧ BankVisit.saveRow ⟨PyVal.int 3, PyVal.str "Ivan Petrov",
          PyVal.dt ⟨2024, 3, 1, 10, 30⟩, PyVal.str "Account opening"⟩
      = Except.ok ["3", "Ivan Petrov", "2024-03-01 10:30", "Account opening"]
    ∧ BankVisit.make (PyVal.str "3") (PyVal.str "Ivan Petrov")
        (PyVal.str "2024-03-01 10:30") (PyVal.str "Account opening")
      = Except.ok ⟨PyVal.int 3, PyVal.str "Ivan Petrov", PyVal.dt ⟨2024, 3, 1, 10, 30⟩,
          PyVal.str "Account opening"⟩ :=
  c1_roundtrip (PyVal.str "3") 3 "Ivan Petrov" "2024-03-01 10:30" "Account opening"
    ⟨2024, 3, 1, 10, 30⟩ (by decide) (by decide) (by decide)

/-- C2 (counterexample): save-then-load is not the identity for every store
of validly-constructed records.  A record built from the valid text
"0999-01-05 09:00" is saved with a three-digit year, and reloading skips the
row: the reloaded store has 0 records instead of 1. -/
theorem c2_counterexample :
    BankVisit.make (PyVal.int 7) (PyVal.str "Anna") (PyVal.str "0999-01-05 09:00")
        (PyVal.str "Deposit")
      = Except.ok ⟨PyVal.int 7, PyVal.str "Anna", PyVal.dt ⟨999, 1, 5, 9, 0⟩,
          PyVal.str "Deposit"⟩
    ∧ VisitCollection.save_csv ⟨[⟨PyVal.int 7, PyVal.str "Anna",
          PyVal.dt ⟨999, 1, 5, 9, 0⟩, PyVal.str "Deposit"⟩], 0⟩
      = Except.ok [csvHeader, ["7", "Anna", "999-01-05 09:00", "Deposit"]]
    ∧ VisitCollection.from_csv (some [csvHeader, ["7", "Anna", "999-01-05 09:00", "Deposit"]])
      = Except.ok (⟨[], 0⟩, [mkRowError ["7", "Anna", "999-01-05 09:00", "Deposit"]]) := by
  decide

/-- C2 (amended): for every store whose records hold validated field values
with timestamp year at least 1000, saving and reloading the same rows yields a
store with the same records, equal in all four fields, in the same order (and
no row is reported as skipped). -/
theorem c2_roundtrip (c : VisitCollection) (h : ∀ v ∈ c._visits, WF1000 v) :
    ∃ rows, c.save_csv = Except.ok rows ∧
      VisitCollection.from_csv (some rows) = Except.ok (⟨c._visits, 0⟩, []) := by
  obtain ⟨rows, hrows⟩ := saveRows_wf c._visits h
  refine ⟨csvHeader :: rows, ?_, ?_⟩
  · unfold VisitCollection.save_csv
    rw [hrows]
  · show fromCsvRows csvHeader rows VisitCollection.init [] = _
    rw [fromCsvRows_wf c._visits h rows hrows VisitCollection.init []]
    rfl

/-- C2 (witness): the save/load round-trip evaluated on the spec's singleton
store example. -/
theorem c2_roundtrip_witness :
    ∃ rows, VisitCollection.save_csv ⟨[visitA], 0⟩ = Except.ok rows ∧
      VisitCollection.from_csv (some rows) = Except.ok (⟨[visitA], 0⟩, []) :=
  c2_roundtrip ⟨[visitA], 0⟩ (by
    intro v hv
    simp only [List.mem_singleton] at hv
    subst hv
    exact ⟨1, "Anna Ivanova", ⟨2024, 1, 5, 9, 0⟩, "Deposit", rfl, by decide, by decide⟩)

/-- C3 (counterexample): "2024-1-05 09:00" does not match the exact zero-padded
`YYYY-MM-DD HH:MM` shape, yet construction succeeds instead of failing with
`ValidationError` — `strptime` also accepts unpadded fields. -/
theorem c3_counterexample :
    specStrictShape "2024-1-05 09:00" = false
    ∧ BankVisit.make (PyVal.int 1) (PyVal.str "Ivan") (PyVal.str "2024-1-05 09:00")
        (PyVal.str "Loan")
      = Except.ok ⟨PyVal.int 1, PyVal.str "Ivan", PyVal.dt ⟨2024, 1, 5, 9, 0⟩,
          PyVal.str "Loan"⟩ := by
  decide

/-- C3 (amended): construction fails with `ValidationError` for every date-time
string that does not match the `'%Y-%m-%d %H:%M'` pattern read as a grammar
(four-digit year, `-`, month, `-`, day, whitespace, hour, `:`, minute, with the
unpadded and space-padded field forms the pattern also accepts) denoting a
valid calendar date-time. -/
theorem c3_rejects_nonformat (n : Int) (fn vt s : String)
    (h : ∀ d : PyDateTime, ¬(LooseMatch s.data d ∧ d.valid = true)) :
    BankVisit.make (PyVal.int n) (PyVal.str fn) (PyVal.str s) (PyVal.str vt)
      = Except.error PyErr.valueError := by
  rcases hp : pyStrptime s with e | d
  · have hpd : BankVisit.parse_date s = Except.error PyErr.valueError := by
      unfold BankVisit.parse_date
      rw [hp]
    exact make_date_error (PyVal.int n) n (PyVal.str fn) (PyVal.str vt) s
      PyErr.valueError rfl hpd
  · exact absurd (pyStrptime_ok_loose s d hp) (h d)

/-- C3 (witness): a string that matches no decomposition of the pattern is
rejected at construction. -/
theorem c3_rejects_witness :
    BankVisit.make (PyVal.int 0) (PyVal.str "N") (PyVal.str "oops") (PyVal.str "T")
      = Except.error PyErr.valueError :=
  c3_rejects_nonformat 0 "N" "T" "oops"
    (fun d hd => absurd (looseMatch_length _ d hd.1) (by decide))

/-- C4 (code behaviour at the failing input): loading a 3-row file whose second
data row is missing its last two columns does NOT skip that row —
`csv.DictReader` pads the row with `None`, the record is constructed with
`date = None` and added, the store ends with 3 records and nothing is
reported; a later `save_csv` of that store then raises `AttributeError`. -/
theorem c4_short_row_not_skipped :
    VisitCollection.from_csv (some [["№", "ФИО", "Дата и время", "Тип обращения"],
        ["1", "Anna", "2024-01-05 09:00", "Deposit"], ["5", "Bob"],
        ["2", "Carl", "2024-03-01 10:30", "Loan"]])
      = Except.ok (⟨[⟨PyVal.int 1, PyVal.str "Anna", PyVal.dt ⟨2024, 1, 5, 9, 0⟩,
            PyVal.str "Deposit"⟩,
          ⟨PyVal.int 5, PyVal.str "Bob", PyVal.none, PyVal.none⟩,
          ⟨PyVal.int 2, PyVal.str "Carl", PyVal.dt ⟨2024, 3, 1, 10, 30⟩,
            PyVal.str "Loan"⟩], 0⟩, [])
    ∧ VisitCollection.save_csv ⟨[⟨PyVal.int 1, PyVal.str "Anna",
          PyVal.dt ⟨2024, 1, 5, 9, 0⟩, PyVal.str "Deposit"⟩,
        ⟨PyVal.int 5, PyVal.str "Bob", PyVal.none, PyVal.none⟩,
        ⟨PyVal.int 2, PyVal.str "Carl", PyVal.dt ⟨2024, 3, 1, 10, 30⟩,
          PyVal.str "Loan"⟩], 0⟩
      = Except.error PyErr.attributeError := by
  decide

/-- C5: an integer id is stored as is; a numeric string id (including one with
leading zeros, e.g. "007") is coerced and stored as the integer value; a
string id that `int()` cannot parse fails construction with `ValidationError`.
(Per the spec, id values are strings or numbers.) -/
theorem c5_id_coercion (fn vt : String) (d : PyDateTime) :
    (∀ n : Int, BankVisit.make (PyVal.int n) (PyVal.str fn) (PyVal.dt d) (PyVal.str vt)
        = Except.ok ⟨PyVal.int n, PyVal.str fn, PyVal.dt d, PyVal.str vt⟩)
    ∧ (∀ (s : String) (n : Int), pyIntOfString s = Except.ok n →
        BankVisit.make (PyVal.str s) (PyVal.str fn) (PyVal.dt d) (PyVal.str vt)
          = Except.ok ⟨PyVal.int n, PyVal.str fn, PyVal.dt d, PyVal.str vt⟩)
    ∧ pyIntOfString "007" = Except.ok 7
    ∧ (∀ s : String, pyIntOfString s = Except.error PyErr.valueError →
        BankVisit.make (PyVal.str s) (PyVal.str fn) (PyVal.dt d) (PyVal.str vt)
          = Except.error PyErr.valueError) := by
  refine ⟨fun n => make_ok_dt_date (PyVal.int n) n fn vt d rfl,
    fun s n hs => make_ok_dt_date (PyVal.str s) n fn vt d hs,
    by decide,
    fun s hs => make_vid_error (PyVal.str s) (PyVal.str fn) (PyVal.dt d) (PyVal.str vt)
      PyErr.valueError hs⟩

/-- C5 (witness): "007" is stored as the integer 7; "abc" fails with
`ValidationError`. -/
theorem c5_id_coercion_witness :
    BankVisit.make (PyVal.str "007") (PyVal.str "A") (PyVal.dt ⟨2024, 1, 5, 9, 0⟩)
        (PyVal.str "B")
      = Except.ok ⟨PyVal.int 7, PyVal.str "A", PyVal.dt ⟨2024, 1, 5, 9, 0⟩, PyVal.str "B"⟩
    ∧ BankVisit.make (PyVal.str "abc") (PyVal.str "A") (PyVal.dt ⟨2024, 1, 5, 9, 0⟩)
        (PyVal.str "B")
      = Except.error PyErr.valueError :=
  ⟨(c5_id_coercion "A" "B" ⟨2024, 1, 5, 9, 0⟩).2.1 "007" 7 (by decide),
   (c5_id_coercion "A" "B" ⟨2024, 1, 5, 9, 0⟩).2.2.2 "abc" (by decide)⟩

/-- C6: every Record successfully constructed from a string or already-resolved
timestamp argument stores its timestamp as a resolved date-time value (never
raw text) and its id as an integer; records are immutable values, and `add`
stores them unchanged, so every store operation preserves this. -/
theorem c6_internal_representation (vid fn dval vt : PyVal) (v : BankVisit)
    (hmk : BankVisit.make vid fn dval vt = Except.ok v)
    (hdv : (∃ s, dval = PyVal.str s) ∨ (∃ dd, dval = PyVal.dt dd)) :
    (∃ dd : PyDateTime, v.date = PyVal.dt dd) ∧ (∃ n : Int, v.vid = PyVal.int n)
    ∧ ∀ c : VisitCollection, (c.add v)._visits = c._visits ++ [v] := by
  obtain ⟨h1, h2⟩ := make_ok_shapes vid fn dval vt v hmk hdv
  exact ⟨h1, h2, fun c => rfl⟩

/-- C6 (witness): the invariant evaluated on a record built from text. -/
theorem c6_internal_representation_witness :
    (∃ dd : PyDateTime, (⟨PyVal.int 7, PyVal.str "A", PyVal.dt ⟨2024, 1, 5, 9, 0⟩,
        PyVal.str "B"⟩ : BankVisit).date = PyVal.dt dd)
    ∧ (∃ n : Int, (⟨PyVal.int 7, PyVal.str "A", PyVal.dt ⟨2024, 1, 5, 9, 0⟩,
        PyVal.str "B"⟩ : BankVisit).vid = PyVal.int n)
    ∧ ∀ c : VisitCollection, (c.add ⟨PyVal.int 7, PyVal.str "A",
        PyVal.dt ⟨2024, 1, 5, 9, 0⟩, PyVal.str "B"⟩)._visits
      = c._visits ++ [⟨PyVal.int 7, PyVal.str "A", PyVal.dt ⟨2024, 1, 5, 9, 0⟩,
        PyVal.str "B"⟩] :=
  c6_internal_representation (PyVal.str "007") (PyVal.str "A")
    (PyVal.str "2024-01-05 09:00") (PyVal.str "B") _ (by decide)
    (Or.inl ⟨"2024-01-05 09:00", rfl⟩)

/-- C7: loading from a missing file yields an empty store, reports the
"file not found, will be created on save" condition, and raises nothing. -/
theorem c7_missing_file :
    VisitCollection.from_csv Option.none
      = Except.ok (VisitCollection.init,
          ["Файл не найден. Будет создан новый при сохранении."]) := rfl

/-- C8: positional access at index `n` (the record count) fails with
`IndexError`, and for every `i` in `[0, n)` it returns the `i`-th stored
record in insertion order. -/
theorem c8_indexing (c : VisitCollection) :
    c.getitem (c._visits.length : Int) = Except.error PyErr.indexError
    ∧ ∀ (i : Nat) (h : i < c._visits.length),
        c.getitem (i : Int) = Except.ok (c._visits.get ⟨i, h⟩) := by
  constructor
  · unfold VisitCollection.getitem
    split
    · rename_i hcond
      exfalso
      simp only [pyIndex] at hcond
      split at hcond
      · omega
      · omega
    · rfl
  · intro i h
    unfold VisitCollection.getitem
    split
    · rename_i hcond
      have hval : (pyIndex (i : Int) c._visits.length).toNat = i := by
        simp only [pyIndex]
        split
        · omega
        · omega
      simp only [hval]
    · rename_i hcond
      exfalso
      simp only [pyIndex] at hcond
      split at hcond
      · omega
      · push_neg at hcond
        have := hcond (by omega)
        omega

/-- C8 (witness): indexing evaluated on a two-record store. -/
theorem c8_indexing_witness :
    VisitCollection.getitem ⟨[visitA, visitB], 0⟩ 2 = Except.error PyErr.indexError
    ∧ VisitCollection.getitem ⟨[visitA, visitB], 0⟩ 0 = Except.ok visitA :=
  ⟨(c8_indexing ⟨[visitA, visitB], 0⟩).1,
   (c8_indexing ⟨[visitA, visitB], 0⟩).2 0 (by decide)⟩

/-- C9 (counterexample): a fresh traversal does NOT always start at the first
record.  After consuming one element of a two-record store and abandoning that
traversal, the next full traversal (the iterator is `self` with a shared
cursor) yields only the second record. -/
theorem c9_counterexample :
    ((VisitCollection.next ⟨[visitA, visitB], 0⟩).2.runFor).1 = [visitB]
    ∧ [visitB] ≠ [visitA, visitB] := by
  decide

/-- C9 (amended): a traversal that begins with the cursor at the start — the
initial state, or the state left by any traversal that ran to exhaustion —
yields all records in insertion order and resets the cursor, so consecutive
completed traversals each restart from the beginning; a traversal abandoned
mid-way leaves the cursor where it stopped and the next traversal resumes
there. -/
theorem c9_restart (c : VisitCollection) (h : c._current = 0) :
    (c.runFor).1 = c._visits ∧ (c.runFor).2 = ⟨c._visits, 0⟩
    ∧ ((c.runFor).2.runFor).1 = c._visits := by
  have h1 := runFor_cursor_zero c h
  have h2 := runFor_cursor_zero ⟨c._visits, 0⟩ rfl
  refine ⟨by rw [h1], by rw [h1], ?_⟩
  rw [h1]
  show (VisitCollection.runFor ⟨c._visits, 0⟩).1 = c._visits
  rw [h2]

/-- C9 (witness): two consecutive complete traversals of a concrete store both
yield all records. -/
theorem c9_restart_witness :
    (VisitCollection.runFor ⟨[visitA, visitB], 0⟩).1 = [visitA, visitB]
    ∧ (VisitCollection.runFor ⟨[visitA, visitB], 0⟩).2 = ⟨[visitA, visitB], 0⟩
    ∧ ((VisitCollection.runFor ⟨[visitA, visitB], 0⟩).2.runFor).1 = [visitA, visitB] :=
  c9_restart ⟨[visitA, visitB], 0⟩ rfl

/-- C10: for a store with `n` records, a negative index `-k` with `k` in
`[1, n]` does not raise: it returns the record at position `n - k` (so
`store[-1]` is the last record). -/
theorem c10_negative_index (c : VisitCollection) (k : Nat) (h1 : 1 ≤ k)
    (h2 : k ≤ c._visits.length) :
    c.getitem (-(k : Int)) = Except.ok (c._visits.get ⟨c._visits.length - k, by omega⟩) := by
  unfold VisitCollection.getitem
  split
  · rename_i hcond
    have hval : (pyIndex (-(k : Int)) c._visits.length).toNat = c._visits.length - k := by
      simp only [pyIndex]
      split
      · omega
      · omega
    simp only [hval]
  · rename_i hcond
    exfalso
    simp only [pyIndex] at hcond
    push_neg at hcond
    split at hcond
    · have := hcond (by omega)
      omega
    · omega

/-- C10 (witness): `store[-1]` returns the last record of a two-record store. -/
theorem c10_negative_index_witness :
    VisitCollection.getitem ⟨[visitA, visitB], 0⟩ (-1) = Except.ok visitB :=
  c10_negative_index ⟨[visitA, visitB], 0⟩ 1 (by decide) (by decide)
